import Mathlib

/-!
Verification of the k6provider package (provider.go) against its
natural-language specification.

The development shallowly embeds the package: pure helpers (buildDeps,
UnmarshalDeps) become Lean functions; the effectful GetBinary and
NewProvider become functions over an explicit environment describing the
outcomes of the external collaborators (build service, filesystem stat,
mkdir, open, HTTP download), threading a filesystem model and a trace of
the side effects performed. Go errors built with errors.New and
fmt.Errorf wrapping are modelled by the GoErr tree together with an
errors.Is style search.
-/

/-- Model of a Go error value: sentinel errors from errors.New, opaque
external errors, and the two wrapping forms used by provider.go,
fmt.Errorf with two directives wrapping both operands and fmt.Errorf
with a sentinel plus a plain string message. -/
inductive GoErr where
  | sentinel (msg : String)
  | ext (tag : String)
  | wrap2 (outer inner : GoErr)
  | wrapMsg (outer : GoErr) (msg : String)
deriving DecidableEq

/-- ErrBinary indicates an error creating the local binary. -/
def ErrBinary : GoErr := GoErr.sentinel ("creating binary")

/-- ErrBuild indicates an error building the binary. -/
def ErrBuild : GoErr := GoErr.sentinel ("building binary")

/-- ErrConfig is produced by invalid configuration. -/
def ErrConfig : GoErr := GoErr.sentinel ("invalid configuration")

/-- ErrDependency is produced by invalid dependencies. -/
def ErrDependency : GoErr := GoErr.sentinel ("invalid dependency")

/-- ErrDownload indicates an error downloading the binary. -/
def ErrDownload : GoErr := GoErr.sentinel ("downloading binary")

/-- Model of errors.Is: the target matches the error itself or anything
reachable through the wrapping structure. -/
def GoErr.is : GoErr → GoErr → Bool
  | e@(GoErr.wrap2 a b), target => e == target || a.is target || b.is target
  | e@(GoErr.wrapMsg a _), target => e == target || a.is target
  | e, target => e == target

/-- The name of the k6 binary file inside the artifact cache directory. -/
def k6Binary : String := "k6"

/-- The module name of the primary k6 dependency. -/
def k6Module : String := "k6"

namespace k6deps

/-- Model of a k6deps dependency entry: a name together with the
canonical string form of its version constraints, the value of
GetConstraints followed by String in the source. -/
structure Dependency where
  Name : String
  Constraints : String
deriving DecidableEq

end k6deps

/-- Model of k6deps.Dependencies as an ordered collection of entries,
following the ordered-collection reading of the dependency
specification. -/
abbrev Dependencies := List k6deps.Dependency

namespace k6build

/-- Model of a k6build auxiliary dependency sent to the build service. -/
structure Dependency where
  Name : String
  Constraints : String
deriving DecidableEq

end k6build

/-- Embedding of buildDeps from provider.go: fold over the dependency
entries, recording the constraint of the primary module separately
(defaulting to the wildcard) and appending every other entry to the
auxiliary list. -/
def buildDeps (deps : Dependencies) : String × List k6build.Dependency :=
  deps.foldl
    (fun acc dep =>
      if dep.Name == k6Module then (dep.Constraints, acc.2)
      else (acc.1, acc.2 ++ [⟨dep.Name, dep.Constraints⟩]))
    (("*"), ([]))

/-- The step function of the buildDeps fold, named for the lemmas. -/
def buildDepsStep (acc : String × List k6build.Dependency) (dep : k6deps.Dependency) :
    String × List k6build.Dependency :=
  if dep.Name == k6Module then (dep.Constraints, acc.2)
  else (acc.1, acc.2 ++ [⟨dep.Name, dep.Constraints⟩])

theorem buildDeps_eq_foldl (deps : Dependencies) :
    buildDeps deps = deps.foldl buildDepsStep (("*"), ([])) := rfl

theorem buildDeps_foldl_fst_of_no_k6 (deps : Dependencies)
    (h : ∀ d ∈ deps, d.Name ≠ k6Module) (c : String) (l : List k6build.Dependency) :
    (deps.foldl buildDepsStep (c, l)).1 = c := by
  induction deps generalizing c l with
  | nil => rfl
  | cons d ds ih =>
      have hd : d.Name ≠ k6Module := h d (List.mem_cons_self d ds)
      have hds : ∀ x ∈ ds, x.Name ≠ k6Module := fun x hx => h x (List.mem_cons_of_mem d hx)
      simp only [List.foldl_cons, buildDepsStep, beq_iff_eq, if_neg hd]
      exact ih hds c (l ++ [⟨d.Name, d.Constraints⟩])

theorem buildDeps_foldl_snd (deps : Dependencies) (c : String)
    (l : List k6build.Dependency) :
    (deps.foldl buildDepsStep (c, l)).2 =
      l ++ (deps.filter (fun d => d.Name != k6Module)).map
        (fun d => ⟨d.Name, d.Constraints⟩) := by
  induction deps generalizing c l with
  | nil => simp
  | cons d ds ih =>
      by_cases hd : d.Name = k6Module
      · simp only [List.foldl_cons, buildDepsStep, beq_iff_eq, if_pos hd]
        rw [ih]
        simp [List.filter_cons, hd]
      · simp only [List.foldl_cons, buildDepsStep, beq_iff_eq, if_neg hd]
        rw [ih]
        simp [List.filter_cons, hd]

/-- Claim C4: for every dependency specification that contains no entry
named k6, buildDeps yields the wildcard as the primary constraint. -/
theorem buildDeps_no_k6_gives_wildcard (deps : Dependencies)
    (h : ∀ d ∈ deps, d.Name ≠ k6Module) : (buildDeps deps).1 = "*" := by
  rw [buildDeps_eq_foldl]
  exact buildDeps_foldl_fst_of_no_k6 deps h ("*") ([])

/-- Witness for C4 at a concrete two-entry specification without k6. -/
theorem buildDeps_no_k6_gives_wildcard_witness :
    (buildDeps [⟨("k6/x/sql"), ("*")⟩, ⟨("k6/x/kubernetes"), (">=v0.9.0")⟩]).1 = "*" :=
  buildDeps_no_k6_gives_wildcard
    [⟨("k6/x/sql"), ("*")⟩, ⟨("k6/x/kubernetes"), (">=v0.9.0")⟩] (by decide)

/-- Claim C5: the auxiliary list produced by buildDeps is exactly the
non-primary entries in order, names and constraint strings verbatim,
hence has exactly as many entries as the specification has non-primary
entries, and contains no entry named k6. -/
theorem buildDeps_aux_verbatim (deps : Dependencies) :
    (buildDeps deps).2 =
      (deps.filter (fun d => d.Name != k6Module)).map (fun d => ⟨d.Name, d.Constraints⟩)
    ∧ (buildDeps deps).2.length = (deps.filter (fun d => d.Name != k6Module)).length
    ∧ (buildDeps deps).2.all (fun b => b.Name != k6Module) = true := by
  have hsnd := buildDeps_foldl_snd deps ("*") ([])
  rw [buildDeps_eq_foldl]
  refine ⟨by simpa using hsnd, ?_, ?_⟩
  · rw [hsnd]; simp
  · rw [hsnd]
    simp only [List.nil_append, List.all_eq_true]
    intro b hb
    rcases List.mem_map.mp hb with ⟨d, hd, hbd⟩
    have hdn : d.Name != k6Module := (List.mem_filter.mp hd).2
    rw [← hbd]
    simpa using hdn

/-- Claim C7: buildDeps is a pure function of the dependency
specification, so two runs on the same specification produce the same
primary constraint and the same ordered auxiliary list. -/
theorem buildDeps_deterministic (deps : Dependencies) :
    (buildDeps deps).1 = (buildDeps deps).1 ∧ (buildDeps deps).2 = (buildDeps deps).2 :=
  ⟨rfl, rfl⟩

/-- A character is escaped by the Go quote verb exactly when it is the
quote, the backslash, or not printable under the Unicode printability
classification of the Go standard library; that classification is an
external collaborator and is passed as the isPrint oracle. -/
def needsEscape (isPrint : Char → Bool) (c : Char) : Bool :=
  c == '"' || c == '\\' || !isPrint c

/-- Lower-case hexadecimal digit of a nibble. -/
def lowerHexDigit (n : Nat) : Char :=
  if n < 10 then Char.ofNat (48 + n) else Char.ofNat (87 + n)

/-- Escape of one character under the Go quote verb, following the
escaping of the standard library: quote and backslash are always
backslashed; printable characters, as classified by the isPrint
oracle, are written verbatim; the named control escapes come next;
other characters below space and the delete character get a two-digit
hex escape; every remaining non-printable character gets a four-digit
or an eight-digit Unicode escape. The invalid code point branch of the
standard library cannot arise because Lean characters are Unicode
scalar values. -/
def goEscapeChar (isPrint : Char → Bool) (c : Char) : List Char :=
  if c == '"' then ['\\', '"']
  else if c == '\\' then ['\\', '\\']
  else if isPrint c then [c]
  else if c.toNat == 7 then ['\\', 'a']
  else if c.toNat == 8 then ['\\', 'b']
  else if c.toNat == 12 then ['\\', 'f']
  else if c.toNat == 10 then ['\\', 'n']
  else if c.toNat == 13 then ['\\', 'r']
  else if c.toNat == 9 then ['\\', 't']
  else if c.toNat == 11 then ['\\', 'v']
  else if decide (c.toNat < 32) || c.toNat == 127 then
    ['\\', 'x', lowerHexDigit (c.toNat / 16 % 16), lowerHexDigit (c.toNat % 16)]
  else if decide (c.toNat < 65536) then
    ['\\', 'u',
     lowerHexDigit (c.toNat / 4096 % 16), lowerHexDigit (c.toNat / 256 % 16),
     lowerHexDigit (c.toNat / 16 % 16), lowerHexDigit (c.toNat % 16)]
  else
    ['\\', 'U',
     lowerHexDigit (c.toNat / 268435456 % 16), lowerHexDigit (c.toNat / 16777216 % 16),
     lowerHexDigit (c.toNat / 1048576 % 16), lowerHexDigit (c.toNat / 65536 % 16),
     lowerHexDigit (c.toNat / 4096 % 16), lowerHexDigit (c.toNat / 256 % 16),
     lowerHexDigit (c.toNat / 16 % 16), lowerHexDigit (c.toNat % 16)]

/-- Model of the Go verb that renders a string as a double quoted Go
literal, as used by the dependency formatting in UnmarshalDeps, over
the printability oracle. -/
def goQuote (isPrint : Char → Bool) (s : String) : String :=
  String.mk ('"' :: (s.data.map (goEscapeChar isPrint)).flatten ++ ['"'])

/-- Printability restricted to the ASCII range, space through tilde,
where it agrees with the classification of the Go standard library;
used to instantiate the oracle at concrete inputs. -/
def asciiPrint (c : Char) : Bool :=
  decide (32 ≤ c.toNat) && decide (c.toNat ≤ 126)

/-- Model of bytes.Buffer: the string written so far. -/
structure Buffer where
  contents : String
deriving DecidableEq

/-- Model of the WriteString method of bytes.Buffer. -/
def Buffer.WriteString (b : Buffer) (s : String) : Buffer :=
  ⟨b.contents ++ s⟩

/-- The string produced for one dependency entry by the format string
with a name directive, a colon, a quote directive and a semicolon. -/
def sprintfDep (isPrint : Char → Bool) (name version : String) : String :=
  name ++ (":") ++ goQuote isPrint version ++ (";")

/-- Model of the K6Binary result value: path, dependency map as an
association list of name and version, and checksum. -/
structure K6Binary where
  Path : String
  Dependencies : List (String × String)
  Checksum : String
deriving DecidableEq

/-- The zero K6Binary value returned beside every error. -/
def K6Binary.zero : K6Binary := ⟨(""), ([]), ("")⟩

/-- Embedding of UnmarshalDeps from provider.go: write the formatted
entries into a fresh buffer in order and return its contents; the
printability classification of the quote verb is the oracle
parameter. -/
def K6Binary.UnmarshalDeps (b : K6Binary) (isPrint : Char → Bool) : String :=
  (b.Dependencies.foldl
    (fun (buf : Buffer) dv => buf.WriteString (sprintfDep isPrint dv.1 dv.2))
    (Buffer.mk (""))).contents

/-- Concatenation of a list of strings, the spec side rendering used to
state the claim about UnmarshalDeps. -/
def concatStrings : List String → String
  | [] => ""
  | s :: rest => s ++ concatStrings rest

theorem foldl_writeString (isPrint : Char → Bool) (l : List (String × String))
    (init : String) :
    (l.foldl (fun (buf : Buffer) dv => buf.WriteString (sprintfDep isPrint dv.1 dv.2))
        (Buffer.mk init)).contents
      = init ++ concatStrings (l.map (fun dv => sprintfDep isPrint dv.1 dv.2)) := by
  induction l generalizing init with
  | nil => simp [concatStrings]
  | cons dv rest ih =>
      rw [List.map_cons, List.foldl_cons]
      have hstep : Buffer.WriteString (Buffer.mk init) (sprintfDep isPrint dv.1 dv.2)
          = Buffer.mk (init ++ sprintfDep isPrint dv.1 dv.2) := rfl
      rw [hstep, ih]
      simp [concatStrings, String.append_assoc]

theorem flatten_map_singleton (l : List Char) :
    (l.map (fun c => [c])).flatten = l := by
  induction l with
  | nil => rfl
  | cons c cs ih => simp [ih]

theorem goEscapeChar_of_no_escape (isPrint : Char → Bool) (c : Char)
    (h : needsEscape isPrint c = false) : goEscapeChar isPrint c = [c] := by
  simp only [needsEscape, Bool.or_eq_false_iff] at h
  obtain ⟨⟨h1, h2⟩, h3⟩ := h
  have hp : isPrint c = true := by simpa using h3
  simp [goEscapeChar, h1, h2, hp]

theorem goQuote_of_no_escape (isPrint : Char → Bool) (s : String)
    (h : s.data.all (fun c => !needsEscape isPrint c) = true) :
    goQuote isPrint s = ("\"") ++ s ++ ("\"") := by
  have hmap : s.data.map (goEscapeChar isPrint) = s.data.map (fun c => [c]) := by
    apply List.map_congr_left
    intro c hc
    have hcne := (List.all_eq_true.mp h) c hc
    exact goEscapeChar_of_no_escape isPrint c (by simpa using hcne)
  apply String.ext
  simp [goQuote, hmap, flatten_map_singleton]

/-- Claim C10: for every printability oracle, UnmarshalDeps returns the
concatenation, over the dependency entries, of the name, a colon, the
version in double quotes and a trailing semicolon, and the empty string
on an empty dependency map; the quoting is the Go quote verb over the
oracle, and it coincides with plain double quotes exactly when every
character of the version is printable and is neither the quote nor the
backslash. -/
theorem unmarshalDeps_concat (isPrint : Char → Bool) (b : K6Binary) :
    b.UnmarshalDeps isPrint
        = concatStrings (b.Dependencies.map (fun dv => sprintfDep isPrint dv.1 dv.2))
    ∧ (b.Dependencies = [] → b.UnmarshalDeps isPrint = "")
    ∧ ((∀ dv ∈ b.Dependencies, dv.2.data.all (fun c => !needsEscape isPrint c) = true) →
        b.UnmarshalDeps isPrint
          = concatStrings (b.Dependencies.map
              (fun dv => dv.1 ++ (":") ++ ("\"") ++ dv.2 ++ ("\"") ++ (";")))) := by
  have hbase := foldl_writeString isPrint b.Dependencies ("")
  refine ⟨?_, ?_, ?_⟩
  · unfold K6Binary.UnmarshalDeps
    rw [hbase]
    simp
  · intro hnil
    unfold K6Binary.UnmarshalDeps
    rw [hnil]
    rfl
  · intro hall
    unfold K6Binary.UnmarshalDeps
    rw [hbase]
    simp only [String.empty_append]
    congr 1
    apply List.map_congr_left
    intro dv hdv
    have hq := goQuote_of_no_escape isPrint dv.2 (hall dv hdv)
    rw [sprintfDep, hq]
    simp only [← String.append_assoc]

/-- Witness for C10 at a concrete one-entry dependency map, with the
oracle instantiated to ASCII printability. -/
theorem unmarshalDeps_concat_witness :
    (K6Binary.mk ("") ([(("k6"), ("v0.50.0"))]) ("")).UnmarshalDeps asciiPrint
      = concatStrings ([(("k6"), ("v0.50.0"))].map
          (fun dv => dv.1 ++ (":") ++ ("\"") ++ dv.2 ++ ("\"") ++ (";")))
    ∧ (K6Binary.mk ("") ([]) ("")).UnmarshalDeps asciiPrint = "" :=
  ⟨(unmarshalDeps_concat asciiPrint
      (K6Binary.mk ("") ([(("k6"), ("v0.50.0"))]) (""))).2.2 (by decide),
   (unmarshalDeps_concat asciiPrint (K6Binary.mk ("") ([]) (""))).2.1 rfl⟩

/-- Model of filepath.Join for the two-component joins of provider.go. -/
def pathJoin (a b : String) : String :=
  a ++ ("/") ++ b

/-- A path lies under a directory when it is the directory itself or
has the directory plus a separator as a prefix, the removal scope of
os.RemoveAll. -/
def isUnder (dir p : String) : Bool :=
  p == dir || List.isPrefixOf (dir ++ ("/")).data p.data

/-- Model of the local filesystem: the set of existing regular files
and the set of existing directories, as lists of paths. -/
structure FS where
  files : List String
  dirs : List String
deriving DecidableEq

/-- Whether a file exists at a path. -/
def FS.fileExists (fs : FS) (p : String) : Bool :=
  decide (p ∈ fs.files)

/-- Whether a directory exists at a path. -/
def FS.dirExists (fs : FS) (p : String) : Bool :=
  decide (p ∈ fs.dirs)

/-- Model of os.MkdirAll: the directory exists afterwards. -/
def FS.mkdirAll (fs : FS) (dir : String) : FS :=
  ⟨fs.files, dir :: fs.dirs⟩

/-- Model of os.OpenFile with the create flag: the file exists
afterwards. -/
def FS.createFile (fs : FS) (p : String) : FS :=
  ⟨p :: fs.files, fs.dirs⟩

/-- Model of os.RemoveAll: every file and directory at or under the
path is gone afterwards. -/
def FS.removeAll (fs : FS) (dir : String) : FS :=
  ⟨fs.files.filter (fun p => !isUnder dir p),
   fs.dirs.filter (fun p => !isUnder dir p)⟩

/-- One observable side effect of a GetBinary call. -/
inductive Effect where
  | buildCall
  | stat (p : String)
  | mkdirAll (p : String)
  | openFile (p : String)
  | removeAll (p : String)
  | httpGet (url : String)
deriving DecidableEq

/-- Whether an effect mutates the filesystem. -/
def Effect.isMutation : Effect → Bool
  | Effect.mkdirAll _ => true
  | Effect.openFile _ => true
  | Effect.removeAll _ => true
  | _ => false

/-- Whether an effect is a download HTTP request. -/
def Effect.isHttpGet : Effect → Bool
  | Effect.httpGet _ => true
  | _ => false

/-- Whether an effect touches the filesystem at all, stat included. -/
def Effect.isFsOp : Effect → Bool
  | Effect.stat _ => true
  | Effect.mkdirAll _ => true
  | Effect.openFile _ => true
  | Effect.removeAll _ => true
  | _ => false

/-- Model of a k6build artifact descriptor returned by the build
service. -/
structure Artifact where
  ID : String
  URL : String
  Dependencies : List (String × String)
  Checksum : String
deriving DecidableEq

/-- Outcome of the os.Stat call on the cached binary path: success,
the not-exist error, or some other failure. -/
inductive StatOutcome where
  | success
  | notExist
  | failure (e : GoErr)
deriving DecidableEq

/-- Outcome of the download attempt as decided by the environment: the
request constructor fails, the transport fails, or a response arrives
with a status code and, when the status is OK, a body-copy result. -/
inductive DownloadOutcome where
  | reqErr (e : GoErr)
  | transportErr (e : GoErr)
  | httpStatus (code : Nat) (copyErr : Option GoErr)
deriving DecidableEq

/-- Embedding of the download method of provider.go: request
construction and transport failures are wrapped in ErrDownload, a non
OK status yields ErrDownload with the URL as message, and the body-copy
result is returned unchanged. Also yields the HTTP requests issued. -/
def download (fromUrl : String) (o : DownloadOutcome) : Option GoErr × List Effect :=
  match o with
  | DownloadOutcome.reqErr e => (some (GoErr.wrap2 ErrDownload e), [])
  | DownloadOutcome.transportErr e =>
      (some (GoErr.wrap2 ErrDownload e), [Effect.httpGet fromUrl])
  | DownloadOutcome.httpStatus code copyErr =>
      if code != 200 then (some (GoErr.wrapMsg ErrDownload fromUrl), [Effect.httpGet fromUrl])
      else (copyErr, [Effect.httpGet fromUrl])

/-- The artifact cache directory chosen by GetBinary. -/
def artifactDir (bidDir : String) (a : Artifact) : String :=
  pathJoin bidDir a.ID

/-- The cached binary path chosen by GetBinary. -/
def binPath (bidDir : String) (a : Artifact) : String :=
  pathJoin (artifactDir bidDir a) k6Binary

/-- Result of a GetBinary call: the returned K6Binary value, the
returned error, the final filesystem and the trace of side effects. -/
structure GBResult where
  bin : K6Binary
  err : Option GoErr
  fs : FS
  trace : List Effect
deriving DecidableEq

/-- Embedding of GetBinary from provider.go over an environment fixing
the outcomes of the external calls: build the artifact, stat the cache
path, return on a hit, fail on a stat error, otherwise mkdir, open,
download, and on download failure remove the artifact directory and
return the download error unchanged. -/
def GetBinary (bidDir : String) (buildRes : Except GoErr Artifact)
    (statO : StatOutcome) (mkdirErr openErr : Option GoErr)
    (dl : DownloadOutcome) (fs : FS) : GBResult :=
  match buildRes with
  | Except.error e =>
      ⟨K6Binary.zero, some (GoErr.wrap2 ErrBuild e), fs, [Effect.buildCall]⟩
  | Except.ok artifact =>
    match statO with
    | StatOutcome.success =>
        ⟨⟨binPath bidDir artifact, artifact.Dependencies, artifact.Checksum⟩, none, fs,
          [Effect.buildCall, Effect.stat (binPath bidDir artifact)]⟩
    | StatOutcome.failure e =>
        ⟨K6Binary.zero, some (GoErr.wrap2 ErrBinary e), fs,
          [Effect.buildCall, Effect.stat (binPath bidDir artifact)]⟩
    | StatOutcome.notExist =>
      match mkdirErr with
      | some e =>
          ⟨K6Binary.zero, some (GoErr.wrap2 ErrBinary e), fs,
            [Effect.buildCall, Effect.stat (binPath bidDir artifact),
             Effect.mkdirAll (artifactDir bidDir artifact)]⟩
      | none =>
        match openErr with
        | some e =>
            ⟨K6Binary.zero, some (GoErr.wrap2 ErrBinary e),
              FS.mkdirAll fs (artifactDir bidDir artifact),
              [Effect.buildCall, Effect.stat (binPath bidDir artifact),
               Effect.mkdirAll (artifactDir bidDir artifact),
               Effect.openFile (binPath bidDir artifact)]⟩
        | none =>
          match download artifact.URL dl with
          | (some e, dlTrace) =>
              ⟨K6Binary.zero, some e,
                FS.removeAll
                  (FS.createFile (FS.mkdirAll fs (artifactDir bidDir artifact))
                    (binPath bidDir artifact))
                  (artifactDir bidDir artifact),
                ([Effect.buildCall, Effect.stat (binPath bidDir artifact),
                  Effect.mkdirAll (artifactDir bidDir artifact),
                  Effect.openFile (binPath bidDir artifact)] ++ dlTrace)
                  ++ [Effect.removeAll (artifactDir bidDir artifact)]⟩
          | (none, dlTrace) =>
              ⟨⟨binPath bidDir artifact, artifact.Dependencies, artifact.Checksum⟩, none,
                FS.createFile (FS.mkdirAll fs (artifactDir bidDir artifact))
                  (binPath bidDir artifact),
                [Effect.buildCall, Effect.stat (binPath bidDir artifact),
                 Effect.mkdirAll (artifactDir bidDir artifact),
                 Effect.openFile (binPath bidDir artifact)] ++ dlTrace⟩

theorem GoErr.is_self (e : GoErr) : e.is e = true := by
  cases e <;> simp [GoErr.is]

theorem GoErr.is_wrap2_outer (a b t : GoErr) (h : a.is t = true) :
    (GoErr.wrap2 a b).is t = true := by
  cases a <;> simp [GoErr.is, h] at h ⊢ <;> simp [h]

theorem GoErr.is_wrapMsg_outer (a t : GoErr) (m : String) (h : a.is t = true) :
    (GoErr.wrapMsg a m).is t = true := by
  simp [GoErr.is, h]

theorem isUnder_self (d : String) : isUnder d d = true := by
  simp [isUnder]

theorem isUnder_pathJoin (d x : String) : isUnder d (pathJoin d x) = true := by
  simp only [isUnder, pathJoin, Bool.or_eq_true]
  right
  rw [String.data_append]
  exact List.isPrefixOf_iff_prefix.mpr (List.prefix_append _ _)

theorem not_mem_filter_isUnder (dir p : String) (l : List String)
    (hp : isUnder dir p = true) : p ∉ l.filter (fun q => !isUnder dir q) := by
  intro hmem
  have hkeep := (List.mem_filter.mp hmem).2
  rw [hp] at hkeep
  exact Bool.false_ne_true (by simpa using hkeep.symm)

theorem dirExists_removeAll_self (fs : FS) (dir : String) :
    (fs.removeAll dir).dirExists dir = false := by
  simp only [FS.dirExists, FS.removeAll, decide_eq_false_iff_not]
  exact not_mem_filter_isUnder dir dir fs.dirs (isUnder_self dir)

theorem fileExists_removeAll_under (fs : FS) (dir p : String)
    (hp : isUnder dir p = true) : (fs.removeAll dir).fileExists p = false := by
  simp only [FS.fileExists, FS.removeAll, decide_eq_false_iff_not]
  exact not_mem_filter_isUnder dir p fs.files hp

/-- Claim C2: when the build succeeds and the stat on the cache path
succeeds, GetBinary returns that path with no error, leaves the
filesystem untouched, and its trace contains no download HTTP request
and no filesystem mutation. -/
theorem getBinary_cache_hit (bidDir : String) (a : Artifact)
    (mkdirErr openErr : Option GoErr) (dl : DownloadOutcome) (fs : FS) :
    (GetBinary bidDir (Except.ok a) StatOutcome.success mkdirErr openErr dl fs).err = none
    ∧ (GetBinary bidDir (Except.ok a) StatOutcome.success mkdirErr openErr dl fs).bin
        = ⟨binPath bidDir a, a.Dependencies, a.Checksum⟩
    ∧ (GetBinary bidDir (Except.ok a) StatOutcome.success mkdirErr openErr dl fs).fs = fs
    ∧ (GetBinary bidDir (Except.ok a) StatOutcome.success mkdirErr openErr dl fs).trace.all
        (fun eff => !eff.isHttpGet && !eff.isMutation) = true := by
  refine ⟨rfl, rfl, rfl, ?_⟩
  simp [GetBinary, Effect.isHttpGet, Effect.isMutation]

/-- Claim C3: when the build service call fails, GetBinary wraps the
cause in ErrBuild, leaves the filesystem untouched, and its trace is
the bare build call, so no stat, mkdir, open, write or download
happens. -/
theorem getBinary_build_failure (bidDir : String) (e : GoErr)
    (statO : StatOutcome) (mkdirErr openErr : Option GoErr)
    (dl : DownloadOutcome) (fs : FS) :
    (GetBinary bidDir (Except.error e) statO mkdirErr openErr dl fs).err
        = some (GoErr.wrap2 ErrBuild e)
    ∧ GoErr.is (GoErr.wrap2 ErrBuild e) ErrBuild = true
    ∧ (GetBinary bidDir (Except.error e) statO mkdirErr openErr dl fs).fs = fs
    ∧ (GetBinary bidDir (Except.error e) statO mkdirErr openErr dl fs).trace
        = [Effect.buildCall]
    ∧ (GetBinary bidDir (Except.error e) statO mkdirErr openErr dl fs).trace.all
        (fun eff => !eff.isFsOp && !eff.isHttpGet) = true := by
  refine ⟨rfl, GoErr.is_wrap2_outer ErrBuild e ErrBuild (GoErr.is_self ErrBuild), rfl, rfl, ?_⟩
  simp [GetBinary, Effect.isFsOp, Effect.isHttpGet]

/-- Claim C6: when the stat on the cache path fails with an error other
than not-exist, GetBinary wraps the cause in ErrBinary, leaves the
filesystem untouched, and its trace holds only the build call and the
stat, so no create, open or write of the file or its directory is
attempted. -/
theorem getBinary_stat_failure (bidDir : String) (a : Artifact) (e : GoErr)
    (mkdirErr openErr : Option GoErr) (dl : DownloadOutcome) (fs : FS) :
    (GetBinary bidDir (Except.ok a) (StatOutcome.failure e) mkdirErr openErr dl fs).err
        = some (GoErr.wrap2 ErrBinary e)
    ∧ GoErr.is (GoErr.wrap2 ErrBinary e) ErrBinary = true
    ∧ (GetBinary bidDir (Except.ok a) (StatOutcome.failure e) mkdirErr openErr dl fs).fs = fs
    ∧ (GetBinary bidDir (Except.ok a) (StatOutcome.failure e) mkdirErr openErr dl fs).trace
        = [Effect.buildCall, Effect.stat (binPath bidDir a)]
    ∧ (GetBinary bidDir (Except.ok a) (StatOutcome.failure e) mkdirErr openErr dl fs).trace.all
        (fun eff => !eff.isMutation) = true := by
  refine ⟨rfl, GoErr.is_wrap2_outer ErrBinary e ErrBinary (GoErr.is_self ErrBinary), rfl, rfl, ?_⟩
  simp [GetBinary, Effect.isMutation]

/-- Claim C9: every GetBinary call that returns a non-nil error returns
the zero K6Binary value beside it: empty path, empty dependency map,
empty checksum. -/
theorem getBinary_zero_on_error (bidDir : String) (buildRes : Except GoErr Artifact)
    (statO : StatOutcome) (mkdirErr openErr : Option GoErr)
    (dl : DownloadOutcome) (fs : FS)
    (h : (GetBinary bidDir buildRes statO mkdirErr openErr dl fs).err ≠ none) :
    (GetBinary bidDir buildRes statO mkdirErr openErr dl fs).bin = K6Binary.zero
    ∧ K6Binary.zero.Path = ""
    ∧ K6Binary.zero.Dependencies = []
    ∧ K6Binary.zero.Checksum = "" := by
  refine ⟨?_, rfl, rfl, rfl⟩
  cases buildRes with
  | error e => rfl
  | ok a =>
    cases statO with
    | success => exact absurd rfl h
    | failure e => rfl
    | notExist =>
      cases mkdirErr with
      | some e => rfl
      | none =>
        cases openErr with
        | some e => rfl
        | none =>
          rcases hdl : download a.URL dl with ⟨res, tr⟩
          cases res with
          | some e => simp [GetBinary, hdl]
          | none =>
              exfalso
              apply h
              simp [GetBinary, hdl]

/-- Witness for C9 at a concrete build failure. -/
theorem getBinary_zero_on_error_witness :
    (GetBinary ("cache") (Except.error (GoErr.ext ("boom"))) StatOutcome.notExist none none
        (DownloadOutcome.reqErr (GoErr.ext ("x"))) ⟨([]), ([])⟩).bin = K6Binary.zero :=
  (getBinary_zero_on_error ("cache") (Except.error (GoErr.ext ("boom"))) StatOutcome.notExist
      none none (DownloadOutcome.reqErr (GoErr.ext ("x"))) ⟨([]), ([])⟩ (by decide)).1

/-- Counterexample for C1 as stated: with a successful response whose
body copy fails, GetBinary returns the raw copy error, which does not
wrap ErrDownload, even though the artifact directory is removed. -/
theorem getBinary_copy_error_not_download_class :
    (GetBinary ("cache") (Except.ok ⟨("abc"), ("http://u"), ([]), ("sum")⟩)
        StatOutcome.notExist none none
        (DownloadOutcome.httpStatus 200 (some (GoErr.ext ("copy")))) ⟨([]), ([])⟩).err
      = some (GoErr.ext ("copy"))
    ∧ GoErr.is (GoErr.ext ("copy")) ErrDownload = false := by
  exact ⟨rfl, by decide⟩

/-- Claim C1 amended: on every failure of the download step the
artifact cache directory is removed and does not exist afterwards, and
the download error is returned; the error wraps ErrDownload for a
request construction error, a transport error or a non-success status,
while a body-copy error is returned unchanged, not wrapped. -/
theorem getBinary_download_failure_rollback
    (bidDir : String) (a : Artifact) (dl : DownloadOutcome) (fs : FS) (e : GoErr)
    (hfail : (download a.URL dl).1 = some e) :
    (GetBinary bidDir (Except.ok a) StatOutcome.notExist none none dl fs).err = some e
    ∧ (GetBinary bidDir (Except.ok a) StatOutcome.notExist none none dl fs).fs.dirExists
        (artifactDir bidDir a) = false
    ∧ (GetBinary bidDir (Except.ok a) StatOutcome.notExist none none dl fs).fs.fileExists
        (binPath bidDir a) = false
    ∧ Effect.removeAll (artifactDir bidDir a)
        ∈ (GetBinary bidDir (Except.ok a) StatOutcome.notExist none none dl fs).trace
    ∧ (∀ e0, dl = DownloadOutcome.reqErr e0 →
        e = GoErr.wrap2 ErrDownload e0 ∧ GoErr.is e ErrDownload = true)
    ∧ (∀ e0, dl = DownloadOutcome.transportErr e0 →
        e = GoErr.wrap2 ErrDownload e0 ∧ GoErr.is e ErrDownload = true)
    ∧ (∀ code copyErr, dl = DownloadOutcome.httpStatus code copyErr →
        (code ≠ 200 → e = GoErr.wrapMsg ErrDownload a.URL ∧ GoErr.is e ErrDownload = true)
        ∧ (code = 200 → copyErr = some e)) := by
  rcases hdl : download a.URL dl with ⟨res, tr⟩
  rw [hdl] at hfail
  simp only at hfail
  subst hfail
  refine ⟨?_, ?_, ?_, ?_, ?_, ?_, ?_⟩
  · simp [GetBinary, hdl]
  · simp only [GetBinary, hdl]
    exact dirExists_removeAll_self _ _
  · simp only [GetBinary, hdl]
    exact fileExists_removeAll_under _ _ _ (isUnder_pathJoin _ _)
  · simp [GetBinary, hdl]
  · intro e0 hdl0
    subst hdl0
    simp only [download, Prod.mk.injEq, Option.some.injEq] at hdl
    obtain ⟨he, -⟩ := hdl
    refine ⟨he.symm, ?_⟩
    rw [← he]
    exact GoErr.is_wrap2_outer ErrDownload e0 ErrDownload (GoErr.is_self ErrDownload)
  · intro e0 hdl0
    subst hdl0
    simp only [download, Prod.mk.injEq, Option.some.injEq] at hdl
    obtain ⟨he, -⟩ := hdl
    refine ⟨he.symm, ?_⟩
    rw [← he]
    exact GoErr.is_wrap2_outer ErrDownload e0 ErrDownload (GoErr.is_self ErrDownload)
  · intro code copyErr hdl0
    subst hdl0
    constructor
    · intro hne
      have hcode : (code != 200) = true := by simpa [bne_iff_ne] using hne
      simp only [download, hcode, if_true] at hdl
      simp only [Prod.mk.injEq, Option.some.injEq] at hdl
      obtain ⟨he, -⟩ := hdl
      refine ⟨he.symm, ?_⟩
      rw [← he]
      exact GoErr.is_wrapMsg_outer ErrDownload ErrDownload a.URL (GoErr.is_self ErrDownload)
    · intro hc
      subst hc
      simp only [download, bne_self_eq_false] at hdl
      simp only [Bool.false_eq_true, if_false, Prod.mk.injEq] at hdl
      exact hdl.1

/-- Witness for C1 amended at a concrete transport failure. -/
theorem getBinary_download_failure_rollback_witness :
    (GetBinary ("cache") (Except.ok ⟨("abc"), ("http://u"), ([]), ("sum")⟩)
        StatOutcome.notExist none none
        (DownloadOutcome.transportErr (GoErr.ext ("conn"))) ⟨([]), ([])⟩).err
      = some (GoErr.wrap2 ErrDownload (GoErr.ext ("conn"))) :=
  (getBinary_download_failure_rollback ("cache") ⟨("abc"), ("http://u"), ([]), ("sum")⟩
      (DownloadOutcome.transportErr (GoErr.ext ("conn"))) ⟨([]), ([])⟩
      (GoErr.wrap2 ErrDownload (GoErr.ext ("conn"))) rfl).1

/-- Model of the Provider configuration struct. -/
structure Config where
  Platform : String
  BinDir : String
  BuildServiceURL : String
  DownloadProxyURL : String
deriving DecidableEq

/-- Ambient process environment read by NewProvider: the temp
directory and the two environment variables. -/
structure OsEnv where
  tempDir : String
  k6DownloadProxy : String
  k6BuildServiceURL : String
  goos : String
  goarch : String
deriving DecidableEq

/-- State of a successfully constructed provider. -/
structure ProviderState where
  clientHasProxy : Bool
  proxyURL : String
  bidDir : String
  buildSrvURL : String
  platform : String
deriving DecidableEq

/-- The effective download proxy URL: the explicit configuration field
first, the environment variable when that field is empty. -/
def effectiveProxyURL (config : Config) (env : OsEnv) : String :=
  if config.DownloadProxyURL == "" then env.k6DownloadProxy else config.DownloadProxyURL

/-- Embedding of NewProvider from provider.go over parameters fixing
the external url.Parse and build-service client construction: a
non-empty effective proxy URL is parsed and a parse failure returns the
cause wrapped in ErrConfig; a build-service client construction failure
is returned unchanged; otherwise the provider state is assembled with
the defaulted directory, URL and platform. -/
def NewProvider (config : Config) (env : OsEnv)
    (urlParse : String → Except GoErr String)
    (newClientErr : String → Option GoErr) : Except GoErr ProviderState :=
  let binDir := if config.BinDir == "" then
      pathJoin (pathJoin env.tempDir ("k6provider")) ("cache")
    else config.BinDir
  let proxyURL := effectiveProxyURL config env
  let proxyStep : Except GoErr (Bool × String) :=
    if proxyURL != "" then
      match urlParse proxyURL with
      | Except.error e => Except.error (GoErr.wrap2 ErrConfig e)
      | Except.ok parsed => Except.ok (true, parsed)
    else Except.ok (false, (""))
  match proxyStep with
  | Except.error e => Except.error e
  | Except.ok (hasProxy, parsed) =>
    let buildSrvURL := if config.BuildServiceURL == "" then env.k6BuildServiceURL
      else config.BuildServiceURL
    match newClientErr buildSrvURL with
    | some e => Except.error e
    | none =>
      let platform := if config.Platform == "" then env.goos ++ ("/") ++ env.goarch
        else config.Platform
      Except.ok ⟨hasProxy, parsed, binDir, buildSrvURL, platform⟩

/-- Claim C8: when the effective download proxy URL, explicit
configuration first and environment second, is non-empty and fails to
parse, NewProvider fails at construction time with an error wrapping
ErrConfig, so no provider value exists on which GetBinary could be
called and the failure is not deferred to call time. -/
theorem newProvider_malformed_proxy (config : Config) (env : OsEnv)
    (urlParse : String → Except GoErr String) (newClientErr : String → Option GoErr)
    (e : GoErr)
    (hne : effectiveProxyURL config env ≠ "")
    (hparse : urlParse (effectiveProxyURL config env) = Except.error e) :
    NewProvider config env urlParse newClientErr = Except.error (GoErr.wrap2 ErrConfig e)
    ∧ GoErr.is (GoErr.wrap2 ErrConfig e) ErrConfig = true := by
  constructor
  · have hbne : (effectiveProxyURL config env != "") = true := by
      simpa [bne_iff_ne] using hne
    simp [NewProvider, hbne, hparse]
  · exact GoErr.is_wrap2_outer ErrConfig e ErrConfig (GoErr.is_self ErrConfig)

/-- Witness for C8 at a concrete malformed proxy URL. -/
theorem newProvider_malformed_proxy_witness :
    NewProvider ⟨(""), (""), (""), ("::bad")⟩ ⟨("/tmp"), (""), (""), ("linux"), ("amd64")⟩
        (fun _ => Except.error (GoErr.ext ("parse"))) (fun _ => none)
      = Except.error (GoErr.wrap2 ErrConfig (GoErr.ext ("parse"))) :=
  (newProvider_malformed_proxy ⟨(""), (""), (""), ("::bad")⟩
      ⟨("/tmp"), (""), (""), ("linux"), ("amd64")⟩
      (fun _ => Except.error (GoErr.ext ("parse"))) (fun _ => none)
      (GoErr.ext ("parse")) (by decide) rfl).1
